import Mathlib

/-!
Shallow embedding of `snip_tsv.py` (the `snip` tool): a type-coercing
delimited-text reader, numeric-column inference, range cropper, writer and
plot/write dispatcher.  Python values that can appear in a table cell are
modelled by `PyVal`; Python exceptions relevant to the pipeline by `PyErr`;
fallible Python functions return `Except PyErr _`.

External library behaviour is part of the embedding:
* `literal_eval` models CPython `ast.literal_eval` on the single-token
  fragment this tool exercises (keyword literals, optionally signed decimal
  int/float tokens, simple quoted strings, identifiers).  CPython classifies
  a bare identifier as a *syntactically valid* expression (a `Name` node) and
  raises `ValueError`, while text that does not parse at all raises
  `SyntaxError`; the model reproduces this split.  Outside the fragment
  (attribute chains, arithmetic, escape sequences, numeric underscores) the
  model conservatively reports a syntax error; no theorem below depends on
  those inputs.
* the csv layer models the `excel` dialect of Python's `csv` module:
  fields joined by the delimiter, minimal quoting with doubled quote chars,
  every written row terminated by CRLF (`lineterminator` default), a row
  consisting of a single empty field written as a quoted empty string, and a
  blank input line read as the empty row.
-/

namespace SnipTsv

/-- Python exceptions that the pipeline can raise. -/
inductive PyErr where
  | syntaxError
  | valueError
  | indexError
  | stopIteration
deriving DecidableEq

/-- Python float values reachable in this program: finite values are kept
exactly as a decimal scaled integer `m × 10^e` (every float literal token
denotes such a value), plus the distinguished not-a-number value produced by
`float("nan")`.  Exact decimal values idealize IEEE doubles; no claim below
depends on binary rounding. -/
inductive PyFloat where
  | nan
  | finite (m : Int) (e : Int)
deriving DecidableEq

/-- Python values a table cell (or a coerced CLI flag) can hold.  Python's
`None` is `vNone`; an absent CLI flag coerces to `vNone` as well, matching
`coerce(None) is None` in the source. -/
inductive PyVal where
  | vNone
  | vBool (b : Bool)
  | vInt (n : Int)
  | vFloat (x : PyFloat)
  | vStr (s : String)
deriving DecidableEq

/-- Results of fallible Python functions can be compared decidably. -/
instance instDecEqExcept {ε α : Type} [DecidableEq ε] [DecidableEq α] :
    DecidableEq (Except ε α) := fun x y =>
  match x, y with
  | .ok a, .ok b =>
    if h : a = b then isTrue (by rw [h])
    else isFalse (by intro hc; cases hc; exact h rfl)
  | .error a, .error b =>
    if h : a = b then isTrue (by rw [h])
    else isFalse (by intro hc; cases hc; exact h rfl)
  | .ok _, .error _ => isFalse (by intro hc; cases hc)
  | .error _, .ok _ => isFalse (by intro hc; cases hc)

/-- The single-quote character (codepoint 39). -/
def squoteChar : Char := Char.ofNat 39

/-- The backslash character (codepoint 92). -/
def bslashChar : Char := Char.ofNat 92

/-- Space or horizontal tab. -/
def isSpaceTab (c : Char) : Bool := c = ' ' || c = '\t'

/-- Strip spaces and tabs from both ends (CPython's `literal_eval` lstrips
space and tab; the tokenizer accepts trailing blanks). -/
def stripST (s : String) : String :=
  String.mk (((s.data.dropWhile isSpaceTab).reverse.dropWhile isSpaceTab).reverse)

/-- First character of a Python identifier. -/
def isIdentStart (c : Char) : Bool := c.isAlpha || c = '_'

/-- Continuation character of a Python identifier. -/
def isIdentCont (c : Char) : Bool := c.isAlphanum || c = '_'

/-- Recognize a Python identifier (ASCII fragment). -/
def isIdent : List Char → Bool
  | [] => false
  | c :: rest => isIdentStart c && rest.all isIdentCont

/-- Python keywords other than the value keywords `True`/`False`/`None`:
parsing one of these alone is a syntax error. -/
def pyKeywords : List String :=
  ["and", "as", "assert", "async", "await", "break", "class", "continue",
   "def", "del", "elif", "else", "except", "finally", "for", "from",
   "global", "if", "import", "in", "is", "lambda", "nonlocal", "not",
   "or", "pass", "raise", "return", "try", "while", "with", "yield"]

/-- Value of a list of decimal digit characters. -/
def digitsVal (cs : List Char) : Nat :=
  cs.foldl (fun a c => 10 * a + (c.toNat - 48)) 0

/-- Split one optional leading sign, returning the sign as `1` or `-1`. -/
def splitSign : List Char → Int × List Char
  | '-' :: rest => (-1, rest)
  | '+' :: rest => (1, rest)
  | cs => (1, cs)

/-- Recognize an (unsigned) decimal integer token.  Python forbids leading
zeros in a nonzero decimal integer literal (`01` is a syntax error, `000` is
legal). -/
def isDecIntTok : List Char → Bool
  | [] => false
  | c :: rest =>
    c.isDigit && rest.all Char.isDigit &&
      (c ≠ '0' || (c :: rest).all (fun d => d = '0'))

/-- Split a character list at the first exponent marker `e`/`E`. -/
def splitExp : List Char → List Char × Option (List Char)
  | [] => ([], none)
  | c :: rest =>
    if c = 'e' || c = 'E' then ([], some rest)
    else
      let (m, ex) := splitExp rest
      (c :: m, ex)

/-- Split a character list at the first dot. -/
def splitDot : List Char → List Char × Option (List Char)
  | [] => ([], none)
  | c :: rest =>
    if c = '.' then ([], some rest)
    else
      let (m, f) := splitDot rest
      (c :: m, f)

/-- Recognize an (unsigned) float token — `digits.digits`, `digits.`,
`.digits`, each with an optional exponent, or bare digits with an exponent —
and return its exact decimal value as a scaled integer `(m, e)` denoting
`m × 10^e`. -/
def floatTokVal? (cs : List Char) : Option (Int × Int) :=
  let (mant, ex) := splitExp cs
  let (ip, fpOpt) := splitDot mant
  let fp := fpOpt.getD []
  if ip.all Char.isDigit && fp.all Char.isDigit && (ip ≠ [] || fp ≠ []) then
    let m : Int := (digitsVal (ip ++ fp) : Int)
    match ex with
    | none => if fpOpt.isSome then some (m, -(fp.length : Int)) else none
    | some ecs =>
      let (es, ed) := splitSign ecs
      if ed ≠ [] && ed.all Char.isDigit then
        some (m, es * (digitsVal ed : Int) - (fp.length : Int))
      else none
  else none

/-- Recognize a simple quoted string token (single or double quotes, no
embedded quote of the same kind, no backslash escapes, no newline) and
return its contents. -/
def strTokContent? : List Char → Option (List Char)
  | [] => none
  | q :: rest =>
    if (q = squoteChar || q = '"') && rest.length ≥ 1 && rest.getLast? = some q
        && (rest.dropLast.all fun c =>
              c ≠ q && c ≠ bslashChar && c ≠ '\n' && c ≠ '\r') then
      some rest.dropLast
    else none

/-- Lowercase one ASCII letter (`str.lower` on the ASCII fragment). -/
def charLower (c : Char) : Char :=
  if 'A' ≤ c ∧ c ≤ 'Z' then Char.ofNat (c.toNat + 32) else c

/-- Model of Python `str.lower` (ASCII fragment). -/
def pyLower (s : String) : String := String.mk (s.data.map charLower)

/-- Model of CPython `ast.literal_eval` on a raw text token (see the module
comment for the covered fragment).  A bare identifier parses as a `Name`
node, which `literal_eval` rejects with `ValueError`; a lone keyword or
otherwise unparseable text raises `SyntaxError`. -/
def literal_eval (s : String) : Except PyErr PyVal :=
  let cs := (stripST s).data
  if cs = "True".data then .ok (.vBool true)
  else if cs = "False".data then .ok (.vBool false)
  else if cs = "None".data then .ok .vNone
  else
    let (sgn, body) := splitSign cs
    if isDecIntTok body then .ok (.vInt (sgn * (digitsVal body : Int)))
    else
      match floatTokVal? body with
      | some me => .ok (.vFloat (.finite (sgn * me.1) me.2))
      | none =>
        match strTokContent? cs with
        | some content => .ok (.vStr (String.mk content))
        | none =>
          if isIdent cs then
            if pyKeywords.contains (String.mk cs) then .error .syntaxError
            else .error .valueError
          else .error .syntaxError

/-- Model of `coerce` (snip_tsv.py lines 153-163): evaluate the text as a
literal; on `SyntaxError` retry with the text wrapped in single quotes (the
second call's failures propagate); on `ValueError` return `float("nan")`
when the token lowercases to `"nan"`, otherwise re-raise.  `None` input
passes through. -/
def coerce (sOpt : Option String) : Except PyErr PyVal :=
  match sOpt with
  | none => .ok .vNone
  | some s =>
    match literal_eval s with
    | .ok v => .ok v
    | .error .syntaxError =>
      literal_eval (String.singleton squoteChar ++ s ++ String.singleton squoteChar)
    | .error .valueError =>
      if pyLower s = "nan" then .ok (.vFloat .nan) else .error .valueError
    | .error e => .error e

/-- Numeric value of a Python value as a scaled decimal `m × 10^e`, when it
has one (`bool` is a subclass of `int` in Python, so `True`/`False` count as
`1`/`0`); `none` for strings, `None` and the not-a-number float, which
compares unequal to everything. -/
def numRep? : PyVal → Option (Int × Int)
  | .vBool b => some (if b then 1 else 0, 0)
  | .vInt n => some (n, 0)
  | .vFloat (.finite m e) => some (m, e)
  | _ => none

/-- Equality of two scaled decimals `m₁ × 10^e₁` and `m₂ × 10^e₂`. -/
def decimalEq (m1 e1 m2 e2 : Int) : Bool :=
  if e1 ≤ e2 then m2 * (10 : Int) ^ (e2 - e1).toNat = m1
  else m1 * (10 : Int) ^ (e1 - e2).toNat = m2

/-- Model of Python `==` on the values of this program: numbers compare by
numeric value across `bool`/`int`/`float`, `nan` is unequal to everything
(itself included), strings compare by contents, `None` equals only `None`,
and mixed kinds compare unequal. -/
def pyEq (a b : PyVal) : Bool :=
  match numRep? a, numRep? b with
  | some p, some q => decimalEq p.1 p.2 q.1 q.2
  | _, _ =>
    match a, b with
    | .vStr s, .vStr t => decide (s = t)
    | .vNone, .vNone => true
    | _, _ => false

/-- Model of `isinstance(entry, (int, float))`: Python's `bool` is a
subclass of `int`, so booleans pass this test. -/
def isNumeric : PyVal → Bool
  | .vBool _ => true
  | .vInt _ => true
  | .vFloat _ => true
  | _ => false

/-- Model of the `Data` named tuple (snip_tsv.py lines 166-170).  The header
is kept as the raw strings the csv reader produced (the source never coerces
header cells), wrapped in `vStr`. -/
structure Data where
  records : List (List PyVal)
  header : Option (List PyVal) := none
  filename : Option String := none
  is_numeric : Option (List Bool) := none
deriving DecidableEq

/-- Model of the `CropOptions` named tuple: column index and the coerced
start/end marker values (`vNone` when the flag was not supplied, matching
Python's `None`). -/
structure CropOptions where
  col : Int
  start : PyVal
  end_ : PyVal
deriving DecidableEq

/-- Model of the `PlotOptions` named tuple: x and y column indices. -/
structure PlotOptions where
  x : Int
  y : Int
deriving DecidableEq

/-- Model of Python list indexing `record[i]`: negative indices count from
the end, out-of-range indices raise `IndexError`. -/
def pyIndex (record : List PyVal) (i : Int) : Except PyErr PyVal :=
  let j : Int := if 0 ≤ i then i else i + record.length
  if 0 ≤ j ∧ j.toNat < record.length then .ok (record.getD j.toNat .vNone)
  else .error .indexError

/-- Model of the Python slice `l[a:b]` for optional non-negative bounds:
a missing lower bound means the start, a missing upper bound means the end,
and an upper bound past the end is clipped. -/
def pySlice {α : Type} (l : List α) (a b : Option Nat) : List α :=
  (l.take (b.getD l.length)).drop (a.getD 0)

/-- One pass of the fold in `_determine_numeric_columns`: conjoin each
column's flag with the numeric test on this record's entry (Python's `zip`
truncates to the shorter list). -/
def numStep (acc : List Bool) (record : List PyVal) : List Bool :=
  List.zipWith (fun b e => b && isNumeric e) acc record

/-- Model of `_determine_numeric_columns` (lines 185-192): start with one
`True` per entry of `records[0]` — which raises `IndexError` when there are
no records — then fold the numeric test over all records. -/
def _determine_numeric_columns (records : List (List PyVal)) : Except PyErr (List Bool) :=
  match records with
  | [] => .error .indexError
  | r0 :: _ => .ok (records.foldl numStep (r0.map fun _ => true))

/-- Split a character list at every LF. -/
def splitOnNL : List Char → List (List Char)
  | [] => [[]]
  | c :: rest =>
    if c = '\n' then [] :: splitOnNL rest
    else
      match splitOnNL rest with
      | [] => [[c]]
      | p :: ps => (c :: p) :: ps

/-- Split a text into the lines a Python text-mode file iterator yields
(terminators removed); a trailing newline does not produce an extra empty
line. -/
def splitLines (text : String) : List String :=
  let ps := (splitOnNL text.data).map String.mk
  if ps.getLast? = some "" then ps.dropLast else ps

/-- Universal-newline translation performed by Python text-mode reading:
CRLF and lone CR both become LF. -/
def univNL : List Char → List Char
  | [] => []
  | '\r' :: '\n' :: rest => '\n' :: univNL rest
  | '\r' :: rest => '\n' :: univNL rest
  | c :: rest => c :: univNL rest

/-- Universal-newline translation on strings. -/
def univNLStr (s : String) : String := String.mk (univNL s.data)

/-- Scanner state of the csv field splitter: outside any quotes, inside a
quoted section, or just after a quote character inside a quoted section
(where a second quote denotes a literal quote). -/
inductive CsvSt where
  | outside
  | inQuotes
  | quoteSeen
deriving DecidableEq

/-- Field scanner of the csv reader for one line: fields are separated by
the delimiter; a quote at the start of a field opens a quoted section in
which a doubled quote denotes a literal quote character. -/
def csvFieldsAux (delim : Char) : List Char → List Char → CsvSt → List String
  | [], cur, _ => [String.mk cur.reverse]
  | c :: rest, cur, .inQuotes =>
    if c = '"' then csvFieldsAux delim rest cur .quoteSeen
    else csvFieldsAux delim rest (c :: cur) .inQuotes
  | c :: rest, cur, .quoteSeen =>
    if c = '"' then csvFieldsAux delim rest ('"' :: cur) .inQuotes
    else if c = delim then String.mk cur.reverse :: csvFieldsAux delim rest [] .outside
    else csvFieldsAux delim rest (c :: cur) .outside
  | c :: rest, cur, .outside =>
    if c = delim then String.mk cur.reverse :: csvFieldsAux delim rest [] .outside
    else if c = '"' && cur = [] then csvFieldsAux delim rest cur .inQuotes
    else csvFieldsAux delim rest (c :: cur) .outside

/-- Split one csv line into fields; a blank line yields the empty row, as
Python's `csv.reader` does. -/
def csvSplitLine (delim : Char) (line : String) : List String :=
  if line = "" then [] else csvFieldsAux delim line.data [] .outside

/-- Model of `csv.reader`: line-split the text, then field-split each line.
(Quoted fields spanning physical lines are outside the modelled fragment.) -/
def csvParse (text : String) (delim : Char) : List (List String) :=
  (splitLines text).map (csvSplitLine delim)

/-- Model of `read_file` (lines 173-182): csv-parse the text, take the
first row as header when requested (`next` on an exhausted reader raises
`StopIteration`), coerce every data cell, and compute the numeric flags. -/
def read_file (text : String) (delimiter : Char) (has_header : Bool)
    (filename : String) : Except PyErr Data :=
  let rows := csvParse text delimiter
  let headed : Except PyErr (Option (List String) × List (List String)) :=
    if has_header then
      match rows with
      | [] => .error .stopIteration
      | h :: t => .ok (some h, t)
    else .ok (none, rows)
  match headed with
  | .error e => .error e
  | .ok (headerRaw, rest) =>
    match rest.mapM (fun row => row.mapM fun c => coerce (some c)) with
    | .error e => .error e
    | .ok records =>
      match _determine_numeric_columns records with
      | .error e => .error e
      | .ok flags =>
        .ok ⟨records, headerRaw.map (fun h => h.map PyVal.vStr), some filename, some flags⟩

/-- The scanning loop of `crop` (lines 198-202): walk the records with a
running index, remembering the first index whose designated column equals
the start marker and — when an end marker was supplied — the first index
equal to the end marker.  The indexing `record[opts.col]` is performed on
every record, so an out-of-range column raises even after both markers are
found. -/
def cropLoop (col : Int) (st en : PyVal) :
    List (List PyVal) → Nat → Option Nat → Option Nat →
    Except PyErr (Option Nat × Option Nat)
  | [], _, s, e => .ok (s, e)
  | record :: rest, i, s, e =>
    match pyIndex record col with
    | .error err => .error err
    | .ok v =>
      cropLoop col st en rest (i + 1)
        (if pyEq v st ∧ s = none then some i else s)
        (if en ≠ .vNone ∧ pyEq v en ∧ e = none then some i else e)

/-- Model of `crop` (lines 195-204): scan for the marker indices, then
return a new table holding the Python slice `records[start_idx:end_idx]`
together with the input's header and filename; the `is_numeric` field is
left at its default `None`. -/
def crop (data : Data) (opts : CropOptions) : Except PyErr Data :=
  match cropLoop opts.col opts.start opts.end_ data.records 0 none none with
  | .error err => .error err
  | .ok (s, e) => .ok ⟨pySlice data.records s e, data.header, data.filename, none⟩

/-- Strip trailing decimal zeros from the mantissa of `m / 10^k`, so that a
value prints in its shortest exact decimal form. -/
def normMant (m : Int) : Nat → Int × Nat
  | 0 => (m, 0)
  | k + 1 => if m % 10 = 0 && m ≠ 0 then normMant (m / 10) k else (m, k + 1)

/-- Insert a decimal point `k` digits from the right of the digits of `a`,
padding with zeros as needed. -/
def pointed (a : Nat) (k : Nat) : String :=
  let ds0 := (toString a).data
  let ds := if ds0.length ≤ k then List.replicate (k + 1 - ds0.length) '0' ++ ds0 else ds0
  String.mk (ds.take (ds.length - k)) ++ "." ++ String.mk (ds.drop (ds.length - k))

/-- Model of CPython `repr` on the float values this program can build:
integral values print with a trailing `.0`, other finite decimals print
their exact expansion, and `nan` prints as `nan`.  (CPython's switch to
exponent notation for very large or small magnitudes is outside the
modelled fragment; no finite float written by a theorem below reaches it.) -/
def floatRepr : PyFloat → String
  | .nan => "nan"
  | .finite m e =>
    if m = 0 then "0.0"
    else if 0 ≤ e then toString (m * (10 : Int) ^ e.toNat) ++ ".0"
    else
      let mk := normMant m (-e).toNat
      if mk.2 = 0 then toString mk.1 ++ ".0"
      else (if mk.1 < 0 then "-" else "") ++ pointed mk.1.natAbs mk.2

/-- String conversion the csv writer applies to each cell: `str()` for most
values, the empty string for `None`. -/
def pyStr : PyVal → String
  | .vNone => ""
  | .vBool true => "True"
  | .vBool false => "False"
  | .vInt n => toString n
  | .vFloat x => floatRepr x
  | .vStr s => s

/-- Whether the csv writer must quote a field (minimal quoting: the field
contains the delimiter, a quote character, or a line break). -/
def needsQuote (delim : Char) (s : String) : Bool :=
  s.data.any (fun c => c = delim || c = '"' || c = '\n' || c = '\r')

/-- Double every quote character, as csv quoting does. -/
def escQuotes : List Char → List Char
  | [] => []
  | c :: rest => if c = '"' then '"' :: '"' :: escQuotes rest else c :: escQuotes rest

/-- Render one field with minimal quoting. -/
def csvFormatField (delim : Char) (s : String) : String :=
  if needsQuote delim s then "\"" ++ String.mk (escQuotes s.data) ++ "\"" else s

/-- Render one row as the csv writer does: delimiter-joined fields followed
by CRLF (the csv module's default line terminator); a row consisting of a
single empty field is written as a quoted empty string. -/
def csvWriteRow (delim : Char) (cells : List String) : String :=
  if cells = [""] then "\"\"\r\n"
  else String.intercalate (String.singleton delim) (cells.map (csvFormatField delim)) ++ "\r\n"

/-- Model of `write_records` (lines 207-217): write the header row when
present, then every data row, and return status `0`.  The produced text
stands for what is written to the output stream. -/
def write_records (data : Data) (delimiter : Char) : String × Int :=
  let headerTxt :=
    match data.header with
    | none => ""
    | some h => csvWriteRow delimiter (h.map pyStr)
  let body := String.join (data.records.map fun r => csvWriteRow delimiter (r.map pyStr))
  (headerTxt ++ body, 0)

/-- Model of `plot` (lines 220-226): project the x column and the y column
across all records, in row order. -/
def plot (data : Data) (opts : PlotOptions) : Except PyErr (List PyVal × List PyVal) :=
  match data.records.mapM (fun r => pyIndex r opts.x) with
  | .error e => .error e
  | .ok xs =>
    match data.records.mapM (fun r => pyIndex r opts.y) with
    | .error e => .error e
    | .ok ys => .ok (xs, ys)

/-- Observable outcome of a `handler` run: either the cropped table was
written as text (with `write_records`' status), or a figure of the
projected x/y series was produced and presented (with `write_figure`'s
status). -/
inductive Outcome where
  | wrote (text : String) (status : Int)
  | plotted (xs ys : List PyVal) (status : Int)
deriving DecidableEq

/-- Model of `handler` (lines 116-131): build the plot and crop options
(coercing the raw crop flags), read the input, and then either crop and
write — when a crop start value was supplied, i.e. is not `None` after
coercion — or plot and present. -/
def handler (inText inName : String) (has_header : Bool) (delimiter : Char)
    (plot_x plot_y crop_col : Int) (crop_start crop_end : Option String) :
    Except PyErr Outcome :=
  match coerce crop_start with
  | .error e => .error e
  | .ok sv =>
    match coerce crop_end with
    | .error e => .error e
    | .ok ev =>
      let popts : PlotOptions := ⟨plot_x, plot_y⟩
      let copts : CropOptions := ⟨crop_col, sv, ev⟩
      match read_file inText delimiter has_header inName with
      | .error e => .error e
      | .ok data =>
        if copts.start ≠ .vNone then
          match crop data copts with
          | .error e => .error e
          | .ok cropped =>
            let r := write_records cropped delimiter
            .ok (.wrote r.1 r.2)
        else
          match plot data popts with
          | .error e => .error e
          | .ok xy => .ok (.plotted xy.1 xy.2 0)

/-- Spec-side description: index of the first list element satisfying the
predicate. -/
def firstMatchIdx {α : Type} (p : α → Bool) : List α → Option Nat
  | [] => none
  | x :: rest => if p x then some 0 else (firstMatchIdx p rest).map (· + 1)

/-- The designated-column value of a record, for stating the crop
specification (defaults to `None` when indexing would fail; the crop
theorem's hypothesis rules that case out). -/
def colVal (col : Int) (record : List PyVal) : PyVal :=
  (pyIndex record col).toOption.getD .vNone

/-- Whether a fallible computation succeeded. -/
def exOk {ε α : Type} : Except ε α → Bool
  | .ok _ => true
  | .error _ => false

/-- Combine a possibly already-found marker index with a first-match result
for the remaining records, whose indices start at `i`. -/
def mergeIdx (s : Option Nat) (i : Nat) (f : Option Nat) : Option Nat :=
  match s with
  | some k => some k
  | none => f.map (· + i)

/-! Theorems about the embedded program. -/

/-- Looking up an in-range position in a `zipWith`. -/
lemma zipWith_get?_some {α β γ : Type} (f : α → β → γ) (as : List α) :
    ∀ (bs : List β) (j : Nat) (a : α) (b : β),
      as.get? j = some a → bs.get? j = some b →
      (List.zipWith f as bs).get? j = some (f a b) := by
  induction as with
  | nil => intro bs j a b ha _; simp at ha
  | cons x as ih =>
    intro bs j a b ha hb
    cases bs with
    | nil => simp at hb
    | cons y bs =>
      cases j with
      | zero => simp_all
      | succ j =>
        simpa using ih bs j a b (by simpa using ha) (by simpa using hb)

/-- An in-range lookup returns the default-free element. -/
lemma get?_getD {α : Type} (d : α) :
    ∀ (l : List α) (j : Nat), j < l.length → l.get? j = some (l.getD j d) := by
  intro l
  induction l with
  | nil => intro j h; simp at h
  | cons x l ih =>
    intro j h
    cases j with
    | zero => rfl
    | succ j => simpa using ih j (by simpa using h)

/-- One `numStep` preserves the flag-list length when the record has the
same length. -/
lemma numStep_length (acc : List Bool) (r : List PyVal) (h : r.length = acc.length) :
    (numStep acc r).length = acc.length := by
  simp [numStep, h]

/-- Folding `numStep` over equal-length records preserves the flag-list
length. -/
lemma foldl_numStep_length (recs : List (List PyVal)) :
    ∀ acc : List Bool, (∀ r ∈ recs, r.length = acc.length) →
      (recs.foldl numStep acc).length = acc.length := by
  induction recs with
  | nil => intro acc _; rfl
  | cons r rs ih =>
    intro acc h
    have hr : r.length = acc.length := h r (by simp)
    have hstep := numStep_length acc r hr
    have := ih (numStep acc r) (fun r' hr' => by rw [hstep]; exact h r' (by simp [hr']))
    simpa [hstep] using this

/-- Folding `numStep` conjoins, position by position, the numeric test over
all records onto the accumulator. -/
lemma foldl_numStep_get? (recs : List (List PyVal)) :
    ∀ (acc : List Bool) (j : Nat) (b : Bool), acc.get? j = some b →
      (∀ r ∈ recs, r.length = acc.length) →
      (recs.foldl numStep acc).get? j =
        some (b && recs.all fun r => isNumeric (r.getD j .vNone)) := by
  induction recs with
  | nil => intro acc j b hb _; simpa using hb
  | cons r rs ih =>
    intro acc j b hb h
    have hr : r.length = acc.length := h r (by simp)
    have hj : j < acc.length := by
      by_contra hge
      rw [List.get?_eq_none.2 (Nat.le_of_not_lt hge)] at hb
      cases hb
    have hrj : r.get? j = some (r.getD j .vNone) := get?_getD _ r j (by omega)
    have hstep : (numStep acc r).get? j = some (b && isNumeric (r.getD j .vNone)) :=
      zipWith_get?_some _ acc r j b _ hb hrj
    have hlen : ∀ r' ∈ rs, r'.length = (numStep acc r).length := by
      intro r' hr'
      rw [numStep_length acc r hr]
      exact h r' (by simp [hr'])
    have := ih (numStep acc r) j (b && isNumeric (r.getD j .vNone)) hstep hlen
    simpa [Bool.and_assoc] using this

/-- Characterization of `_determine_numeric_columns` on a non-empty list of
equal-length records: one flag per column of the first record, each flag the
conjunction of the numeric test over every record's entry in that column. -/
lemma determine_numeric_eq (r0 : List PyVal) (rest : List (List PyVal))
    (h : ∀ r ∈ r0 :: rest, r.length = r0.length) :
    _determine_numeric_columns (r0 :: rest) =
      .ok ((List.range r0.length).map fun j =>
        (r0 :: rest).all fun r => isNumeric (r.getD j .vNone)) := by
  have hred : _determine_numeric_columns (r0 :: rest)
      = .ok ((r0 :: rest).foldl numStep (r0.map fun _ => true)) := rfl
  rw [hred]
  congr 1
  have hinit : (r0.map fun _ => true).length = r0.length := by simp
  have hlen : ∀ r ∈ r0 :: rest, r.length = (r0.map fun _ => true).length := by
    intro r hr; rw [hinit]; exact h r hr
  apply List.ext_get?_iff.2
  intro j
  by_cases hj : j < r0.length
  · have hb : (r0.map fun _ => true).get? j = some true := by
      rw [List.get?_map]
      rw [get?_getD PyVal.vNone r0 j hj]
      rfl
    rw [foldl_numStep_get? _ _ j true hb hlen]
    rw [List.get?_map, List.get?_range hj]
    simp
  · have hL : ((r0 :: rest).foldl numStep (r0.map fun _ => true)).length = r0.length := by
      rw [foldl_numStep_length _ _ hlen, hinit]
    rw [List.get?_eq_none.2 (by omega : ((r0 :: rest).foldl numStep (r0.map fun _ => true)).length ≤ j)]
    rw [List.get?_eq_none.2 (by simpa using (by omega : r0.length ≤ j))]

/-- C4: for a non-empty list of equal-length coerced rows, the reader's
numeric-flag sequence has one boolean per column, and a column's flag is
true iff every row's value in that column passes the numeric test (the
`all` conjunction is order-independent); the example rows `[[1,"x"],[2,"y"]]`
yield flags `[true, false]` (see the witness). -/
theorem determine_numeric_columns_spec (r0 : List PyVal) (rest : List (List PyVal))
    (h : ∀ r ∈ r0 :: rest, r.length = r0.length) :
    _determine_numeric_columns (r0 :: rest) =
      .ok ((List.range r0.length).map fun j =>
        (r0 :: rest).all fun r => isNumeric (r.getD j .vNone)) :=
  determine_numeric_eq r0 rest h

/-- Witness for C4 at the spec's example table `[[1,"x"],[2,"y"]]`, whose
flags evaluate to `[true, false]`. -/
theorem determine_numeric_columns_spec_witness :
    (∀ r ∈ [[PyVal.vInt 1, PyVal.vStr "x"], [PyVal.vInt 2, PyVal.vStr "y"]],
        r.length = [PyVal.vInt 1, PyVal.vStr "x"].length) ∧
    _determine_numeric_columns [[PyVal.vInt 1, PyVal.vStr "x"], [PyVal.vInt 2, PyVal.vStr "y"]]
      = .ok [true, false] := by
  refine ⟨by decide, ?_⟩
  rw [determine_numeric_columns_spec [PyVal.vInt 1, PyVal.vStr "x"]
    [[PyVal.vInt 2, PyVal.vStr "y"]] (by decide)]
  decide

/-- C10: the numeric test accepts booleans (Python's `bool` is a subclass of
`int`), `"True"`/`"False"` tokens coerce to booleans, and consequently a
column whose cells are all booleans is flagged numeric by the reader's
numeric-flag inference. -/
theorem bool_columns_numeric :
    (∀ b, isNumeric (.vBool b) = true) ∧
    coerce (some "True") = .ok (.vBool true) ∧
    coerce (some "False") = .ok (.vBool false) ∧
    ∀ (r0 : List PyVal) (rest : List (List PyVal)) (j : Nat),
      (∀ r ∈ r0 :: rest, r.length = r0.length) → j < r0.length →
      (∀ r ∈ r0 :: rest, ∃ b, r.getD j .vNone = .vBool b) →
      ∃ flags, _determine_numeric_columns (r0 :: rest) = .ok flags ∧
        flags.get? j = some true := by
  refine ⟨fun b => rfl, by decide, by decide, ?_⟩
  intro r0 rest j hlen hj hbool
  refine ⟨_, determine_numeric_eq r0 rest hlen, ?_⟩
  rw [List.get?_map, List.get?_range hj]
  have hall : ((r0 :: rest).all fun r => isNumeric (r.getD j .vNone)) = true := by
    rw [List.all_eq_true]
    intro r hr
    obtain ⟨b, hb⟩ := hbool r hr
    rw [hb]
    rfl
  exact congrArg some hall

/-- Witness for C10 at the one-column table `[[True],[False]]`. -/
theorem bool_columns_numeric_witness :
    (∀ r ∈ [[PyVal.vBool true], [PyVal.vBool false]],
        r.length = [PyVal.vBool true].length) ∧
    (0 : Nat) < [PyVal.vBool true].length ∧
    (∀ r ∈ [[PyVal.vBool true], [PyVal.vBool false]],
        ∃ b, r.getD 0 .vNone = .vBool b) ∧
    ∃ flags, _determine_numeric_columns [[PyVal.vBool true], [PyVal.vBool false]]
      = .ok flags ∧ flags.get? 0 = some true := by
  have hb : ∀ r ∈ [[PyVal.vBool true], [PyVal.vBool false]],
      ∃ b, r.getD 0 .vNone = .vBool b := by
    intro r hr
    simp only [List.mem_cons, List.mem_singleton, List.not_mem_nil, or_false] at hr
    rcases hr with h | h <;> subst h
    · exact ⟨true, rfl⟩
    · exact ⟨false, rfl⟩
  exact ⟨by decide, by decide, hb,
    bool_columns_numeric.2.2.2 [PyVal.vBool true] [[PyVal.vBool false]] 0
      (by decide) (by decide) hb⟩

/-- C2: the claim says every raw text token that is not a syntactically
valid literal expression — in particular a bare unquoted word such as `"x"`
or `"hello"` — comes back from `coerce` as that string.  It does not: a bare
word parses as a `Name` node, so `ast.literal_eval` raises `ValueError`
(not `SyntaxError`), and `coerce`'s `except ValueError` branch re-raises it
for any token other than `"nan"`.  Evaluating the code at the failing
inputs shows the error escaping `coerce`. -/
theorem coerce_bare_word_raises :
    coerce (some "x") = .error .valueError ∧
    coerce (some "hello") = .error .valueError := by
  constructor <;> decide

/-- C3: when literal evaluation fails with a `ValueError`, `coerce` returns
the not-a-number float exactly when the token lowercases to `"nan"`, and
re-raises the failure for every other such token; and `coerce(None)` is
`None`. -/
theorem coerce_valueError_nan :
    coerce none = .ok .vNone ∧
    ∀ s : String, literal_eval s = .error .valueError →
      coerce (some s) =
        (if pyLower s = "nan" then .ok (.vFloat .nan) else .error .valueError) := by
  refine ⟨rfl, fun s h => ?_⟩
  simp only [coerce, h]

/-- Witness for C3 at the concrete token `"NaN"`. -/
theorem coerce_valueError_nan_witness :
    literal_eval "NaN" = .error .valueError ∧
    coerce (some "NaN") =
      (if pyLower "NaN" = "nan" then .ok (.vFloat .nan) else .error .valueError) :=
  ⟨by decide, coerce_valueError_nan.2 "NaN" (by decide)⟩

/-- C5: the claim says zero data rows are guarded by a clear, explicit
error.  They are not: `_determine_numeric_columns` indexes `records[0]`
without any guard, so reading an input with no data rows crashes with a
bare `IndexError`. -/
theorem read_file_empty_input_raises :
    read_file "" '\t' false "input.tsv" = .error .indexError ∧
    _determine_numeric_columns [] = .error .indexError := by
  constructor <;> decide

/-- C6 counterexample: the claimed output text `"a\tb\n1\t2\n3\t4\n"` is
not what the writer produces, because the csv module terminates rows with
CRLF, not LF. -/
theorem write_records_lf_counterexample :
    (write_records ⟨[[.vInt 1, .vInt 2], [.vInt 3, .vInt 4]],
        some [.vStr "a", .vStr "b"], none, none⟩ '\t').1
      ≠ "a\tb\n1\t2\n3\t4\n" := by
  decide

/-- C6 (amended): writing the table with header `["a","b"]` and rows
`[[1,2],[3,4]]` with delimiter tab produces exactly
`"a\tb\r\n1\t2\r\n3\t4\r\n"` — header row first, then each data row in
order, every row CRLF-terminated — and `write_records` returns status `0`
unconditionally. -/
theorem write_records_crlf :
    write_records ⟨[[.vInt 1, .vInt 2], [.vInt 3, .vInt 4]],
        some [.vStr "a", .vStr "b"], none, none⟩ '\t'
      = ("a\tb\r\n1\t2\r\n3\t4\r\n", 0) ∧
    ∀ (data : Data) (delim : Char), (write_records data delim).2 = 0 := by
  exact ⟨by decide, fun data delim => rfl⟩

/-- C7: reading back — through the text-mode universal-newline translation,
with `has_header` set and the same delimiter — the text produced by writing
the table with header `["a","b"]` and rows `[[1,2],[3,4]]` reproduces the
original header and rows exactly. -/
theorem write_read_roundtrip :
    read_file
        (univNLStr (write_records ⟨[[.vInt 1, .vInt 2], [.vInt 3, .vInt 4]],
            some [.vStr "a", .vStr "b"], none, none⟩ '\t').1)
        '\t' true "f"
      = .ok ⟨[[.vInt 1, .vInt 2], [.vInt 3, .vInt 4]],
          some [.vStr "a", .vStr "b"], some "f", some [true, true]⟩ := by
  decide

/-- Stepping `mergeIdx` past one record: updating the accumulator with the
match test for the head and merging against the tail's first match (offset
one further) is merging the old accumulator against the whole list's first
match. -/
lemma mergeIdx_step (s : Option Nat) (i : Nat) (p : List PyVal → Bool)
    (r : List PyVal) (rs : List (List PyVal)) :
    mergeIdx (if p r = true ∧ s = none then some i else s) (i + 1) (firstMatchIdx p rs)
      = mergeIdx s i (firstMatchIdx p (r :: rs)) := by
  cases s with
  | some k => simp [mergeIdx]
  | none =>
    by_cases hp : p r = true
    · simp [mergeIdx, firstMatchIdx, hp]
    · simp only [hp, false_and, if_false, mergeIdx, firstMatchIdx, if_neg hp]
      cases firstMatchIdx p rs with
      | none => rfl
      | some k => simp [Option.map_map]; omega

/-- The crop scanning loop, on records whose designated column is in range,
returns the first-match indices of the start and end markers (offset by the
running index and merged with whatever was already found); when no end
marker was supplied the end accumulator is returned unchanged. -/
lemma cropLoop_eq (col : Int) (st en : PyVal) (recs : List (List PyVal)) :
    ∀ (i : Nat) (s e : Option Nat),
      (∀ r ∈ recs, exOk (pyIndex r col) = true) →
      cropLoop col st en recs i s e = .ok
        (mergeIdx s i (firstMatchIdx (fun r => pyEq (colVal col r) st) recs),
         if en = .vNone then e
         else mergeIdx e i (firstMatchIdx (fun r => pyEq (colVal col r) en) recs)) := by
  induction recs with
  | nil =>
    intro i s e _
    have h1 : ∀ f : Option Nat, mergeIdx f i none = f := fun f => by
      cases f <;> rfl
    simp only [cropLoop, firstMatchIdx, h1]
    split <;> rfl
  | cons r rs ih =>
    intro i s e h
    have hr : exOk (pyIndex r col) = true := h r (by simp)
    obtain ⟨v, hv⟩ : ∃ v, pyIndex r col = .ok v := by
      cases hidx : pyIndex r col with
      | ok v => exact ⟨v, rfl⟩
      | error err => rw [hidx] at hr; simp [exOk] at hr
    have hcv : colVal col r = v := by simp [colVal, hv, Except.toOption]
    rw [show cropLoop col st en (r :: rs) i s e
        = cropLoop col st en rs (i + 1)
            (if pyEq v st ∧ s = none then some i else s)
            (if en ≠ .vNone ∧ pyEq v en ∧ e = none then some i else e) from by
      simp only [cropLoop, hv]]
    rw [ih (i + 1) _ _ (fun r' hr' => h r' (by simp [hr']))]
    have hst : (if pyEq v st ∧ s = none then some i else s)
        = (if pyEq (colVal col r) st = true ∧ s = none then some i else s) := by
      rw [hcv]
    by_cases hen : en = .vNone
    · simp only [if_pos hen]
      have hend : (if en ≠ .vNone ∧ pyEq v en ∧ e = none then some i else e) = e := by
        simp [hen]
      rw [hend, hst, mergeIdx_step s i (fun r => pyEq (colVal col r) st) r rs]
    · simp only [if_neg hen]
      have hend : (if en ≠ .vNone ∧ pyEq v en ∧ e = none then some i else e)
          = (if pyEq (colVal col r) en = true ∧ e = none then some i else e) := by
        rw [hcv]
        simp [hen]
      rw [hst, hend,
        mergeIdx_step s i (fun r => pyEq (colVal col r) st) r rs,
        mergeIdx_step e i (fun r => pyEq (colVal col r) en) r rs]

/-- C1: for every table and crop options whose designated column is in
range for every row, `crop` returns the Python slice of the rows from the
first index whose designated-column value equals the start marker
(inclusive; from the beginning when there is no match, since the slice
lower bound stays `None`) up to the first index anywhere in the table whose
designated-column value equals the end marker (exclusive; to the end of the
table when the end marker is `None` or unmatched).  The witness instantiates
the spec example: rows `[[0],[1],[2],[3],[4]]`, column 0, start `1`, end `3`
crop to `[[1],[2]]`. -/
theorem crop_slice_spec (data : Data) (opts : CropOptions)
    (hidx : ∀ r ∈ data.records, exOk (pyIndex r opts.col) = true) :
    crop data opts = .ok
      ⟨pySlice data.records
          (firstMatchIdx (fun r => pyEq (colVal opts.col r) opts.start) data.records)
          (if opts.end_ = .vNone then none
           else firstMatchIdx (fun r => pyEq (colVal opts.col r) opts.end_) data.records),
        data.header, data.filename, none⟩ := by
  have hm : ∀ f : Option Nat, mergeIdx none 0 f = f := fun f => by
    cases f <;> simp [mergeIdx]
  rw [show crop data opts
      = (match cropLoop opts.col opts.start opts.end_ data.records 0 none none with
         | .error err => .error err
         | .ok (s, e) => .ok ⟨pySlice data.records s e, data.header, data.filename, none⟩)
      from rfl]
  rw [cropLoop_eq opts.col opts.start opts.end_ data.records 0 none none hidx]
  by_cases hen : opts.end_ = .vNone
  · simp only [if_pos hen, hm]
  · simp only [if_neg hen, hm]

/-- Witness for C1 at the spec example. -/
theorem crop_slice_spec_witness :
    (∀ r ∈ [[PyVal.vInt 0], [PyVal.vInt 1], [PyVal.vInt 2], [PyVal.vInt 3], [PyVal.vInt 4]],
        exOk (pyIndex r 0) = true) ∧
    crop ⟨[[PyVal.vInt 0], [PyVal.vInt 1], [PyVal.vInt 2], [PyVal.vInt 3], [PyVal.vInt 4]],
        none, none, none⟩ ⟨0, .vInt 1, .vInt 3⟩
      = .ok ⟨[[PyVal.vInt 1], [PyVal.vInt 2]], none, none, none⟩ := by
  refine ⟨by decide, ?_⟩
  rw [crop_slice_spec
    ⟨[[PyVal.vInt 0], [PyVal.vInt 1], [PyVal.vInt 2], [PyVal.vInt 3], [PyVal.vInt 4]],
      none, none, none⟩ ⟨0, .vInt 1, .vInt 3⟩ (by decide)]
  decide

/-- C9: the table returned by a successful `crop` carries the input table's
header and filename unchanged, and its numeric-flag field is the default
`None` — `crop` passes only records, header and filename to the `Data`
constructor, so the flags are not recomputed. -/
theorem crop_preserves_header_filename (data : Data) (opts : CropOptions) (out : Data)
    (h : crop data opts = .ok out) :
    out.header = data.header ∧ out.filename = data.filename ∧ out.is_numeric = none := by
  rw [show crop data opts
      = (match cropLoop opts.col opts.start opts.end_ data.records 0 none none with
         | .error err => .error err
         | .ok (s, e) => .ok ⟨pySlice data.records s e, data.header, data.filename, none⟩)
      from rfl] at h
  cases hloop : cropLoop opts.col opts.start opts.end_ data.records 0 none none with
  | error err => rw [hloop] at h; cases h
  | ok se =>
    rw [hloop] at h
    cases h
    exact ⟨rfl, rfl, rfl⟩

/-- Witness for C9 at a concrete table carrying a header, a filename and a
computed flag sequence. -/
theorem crop_preserves_header_filename_witness :
    crop ⟨[[PyVal.vInt 1]], some [PyVal.vStr "h"], some "f", some [true]⟩
        ⟨0, .vInt 1, .vNone⟩
      = .ok ⟨[[PyVal.vInt 1]], some [PyVal.vStr "h"], some "f", none⟩ ∧
    ((⟨[[PyVal.vInt 1]], some [PyVal.vStr "h"], some "f", none⟩ : Data).header
        = (⟨[[PyVal.vInt 1]], some [PyVal.vStr "h"], some "f", some [true]⟩ : Data).header ∧
      (⟨[[PyVal.vInt 1]], some [PyVal.vStr "h"], some "f", none⟩ : Data).filename
        = (⟨[[PyVal.vInt 1]], some [PyVal.vStr "h"], some "f", some [true]⟩ : Data).filename ∧
      (⟨[[PyVal.vInt 1]], some [PyVal.vStr "h"], some "f", none⟩ : Data).is_numeric = none) :=
  ⟨by decide,
    crop_preserves_header_filename
      ⟨[[PyVal.vInt 1]], some [PyVal.vStr "h"], some "f", some [true]⟩
      ⟨0, .vInt 1, .vNone⟩
      ⟨[[PyVal.vInt 1]], some [PyVal.vStr "h"], some "f", none⟩ (by decide)⟩

/-- C8: a successful `handler` run produces a written crop exactly when the
supplied crop-start flag coerces to a non-`None` value, and a plot-present
outcome exactly when it coerces to `None`; the `Outcome` type has no other
constructors, so these are the only two execution paths. -/
theorem handler_dispatch (inText inName : String) (has_header : Bool) (delimiter : Char)
    (plot_x plot_y crop_col : Int) (crop_start crop_end : Option String) (out : Outcome)
    (h : handler inText inName has_header delimiter plot_x plot_y crop_col
          crop_start crop_end = .ok out) :
    ((∃ t st, out = .wrote t st) ↔ ∃ v, coerce crop_start = .ok v ∧ v ≠ .vNone) ∧
    ((∃ xs ys st, out = .plotted xs ys st) ↔ coerce crop_start = .ok .vNone) := by
  unfold handler at h
  cases hcs : coerce crop_start with
  | error e => rw [hcs] at h; cases h
  | ok sv =>
    rw [hcs] at h
    cases hce : coerce crop_end with
    | error e => rw [hce] at h; cases h
    | ok ev =>
      rw [hce] at h
      cases hrd : read_file inText delimiter has_header inName with
      | error e => rw [hrd] at h; cases h
      | ok data =>
        rw [hrd] at h
        have h' : (if sv ≠ PyVal.vNone then
              match crop data ⟨crop_col, sv, ev⟩ with
              | .error e => .error e
              | .ok cropped =>
                .ok (.wrote (write_records cropped delimiter).1
                  (write_records cropped delimiter).2)
            else
              match plot data ⟨plot_x, plot_y⟩ with
              | .error e => .error e
              | .ok xy => .ok (.plotted xy.1 xy.2 0)) = Except.ok out := h
        clear h
        by_cases hsv : sv = PyVal.vNone
        · rw [if_neg (by simp [hsv])] at h'
          cases hpl : plot data ⟨plot_x, plot_y⟩ with
          | error e => rw [hpl] at h'; cases h'
          | ok xy =>
            rw [hpl] at h'
            cases h'
            constructor
            · constructor
              · rintro ⟨t, st, hw⟩; cases hw
              · rintro ⟨v, hv, hne⟩
                cases hv
                exact absurd hsv hne
            · constructor
              · intro _; rw [hsv]
              · intro _; exact ⟨xy.1, xy.2, 0, rfl⟩
        · rw [if_pos (by simpa using hsv)] at h'
          cases hcr : crop data ⟨crop_col, sv, ev⟩ with
          | error e => rw [hcr] at h'; cases h'
          | ok cropped =>
            rw [hcr] at h'
            cases h'
            constructor
            · constructor
              · intro _; exact ⟨sv, rfl, hsv⟩
              · intro _; exact ⟨_, _, rfl⟩
            · constructor
              · rintro ⟨xs, ys, st, hw⟩; cases hw
              · intro hv
                cases hv
                exact absurd rfl hsv

/-- Witness for C8: a run with a supplied crop start takes the crop-write
path. -/
theorem handler_dispatch_witness :
    handler "1\n2\n3\n" "f" false '\t' 0 1 0 (some "2") none
      = .ok (.wrote "2\r\n3\r\n" 0) ∧
    (((∃ t st, (Outcome.wrote "2\r\n3\r\n" 0) = .wrote t st) ↔
        ∃ v, coerce (some "2") = .ok v ∧ v ≠ .vNone) ∧
      ((∃ xs ys st, (Outcome.wrote "2\r\n3\r\n" 0) = .plotted xs ys st) ↔
        coerce (some "2") = .ok .vNone)) :=
  ⟨by decide,
    handler_dispatch "1\n2\n3\n" "f" false '\t' 0 1 0 (some "2") none
      (.wrote "2\r\n3\r\n" 0) (by decide)⟩

end SnipTsv
